import Mathlib

/-!
Verification of the retrieval-and-grounding pipeline of `src/app.py`
(a retrieval-augmented Streamlit chat assistant).

The pipeline is embedded shallowly:
* relevance scores (Python floats) become rationals `ℚ`;
* fallible external calls (embedding, per-namespace vector search, model
  completion) become `Option`-valued oracles packaged in an environment
  record, `none` standing for a raised exception;
* the Python functions `retrieve_context` and `get_response` become pure
  Lean functions of the environment and the user input.
-/

namespace Verai

/-- Configured collection names (line 22 of app.py). -/
def NAMESPACES : List String := ["book-mybook-cs", "blog-cs", "podcast_cs"]

/-- One hit returned by `index.query`: its `metadata` text (which may be
missing, modelled by `none`) and its relevance score. -/
structure SearchHit where
  text : Option String
  score : ℚ
deriving DecidableEq

/-- A hit after line 61 has tagged it with its originating namespace. -/
structure TaggedMatch where
  text : Option String
  score : ℚ
  source_namespace : String
deriving DecidableEq

/-- Python line 72: `match['metadata'].get('text', '')`. -/
def textContent (m : TaggedMatch) : String := m.text.getD ""

/-- External-world state for one call of `retrieve_context`: whether
`get_embedding` succeeds, and what `index.query` returns for each
namespace (`none` models the call raising an exception). -/
structure Env where
  embedOk : Bool
  search : String → Option (List SearchHit)

/-- Lines 60-62: tag every returned match with its namespace. -/
def tagHits (ns : String) (hits : List SearchHit) : List TaggedMatch :=
  hits.map fun h => ⟨h.text, h.score, ns⟩

/-- Contribution of a single namespace to `all_matches` (lines 56-64):
a failed search is swallowed by `except: pass` and contributes nothing. -/
def contribution (env : Env) (ns : String) : List TaggedMatch :=
  match env.search ns with
  | none => []
  | some hits => tagHits ns hits

/-- `all_matches` after the loop over `NAMESPACES` (lines 54-64). -/
def collectMatches (env : Env) : List TaggedMatch :=
  (NAMESPACES.map (contribution env)).flatten

/-- Insert a match into an already score-descending list, after every
element of greater-or-equal score (so arrival order is kept on ties). -/
def insertDesc (m : TaggedMatch) : List TaggedMatch → List TaggedMatch
  | [] => [m]
  | x :: xs => if x.score < m.score then m :: x :: xs else x :: insertDesc m xs

/-- Line 66: `sorted(all_matches, key=lambda x: x['score'], reverse=True)`.
Python's sort is stable; a left-to-right stable insertion sort produces
the same list. -/
def sortDesc (l : List TaggedMatch) : List TaggedMatch :=
  l.foldl (fun acc m => insertDesc m acc) []

/-- The `sorted_matches` value of line 66. -/
def sorted_matches (env : Env) : List TaggedMatch :=
  sortDesc (collectMatches env)

/-- The intended order of the ranking: scores are non-increasing. -/
def ByScoreDesc (a b : TaggedMatch) : Prop := b.score ≤ a.score

/-- The sub-list of matches carrying one given score, in list order. -/
def filterScore (s : ℚ) (l : List TaggedMatch) : List TaggedMatch :=
  l.filter fun m => m.score = s

/-- Line 79's score formatting `f"{score:.2f}"`: round to hundredths and
print with two decimal digits. -/
def format2f (q : ℚ) : String :=
  let n : ℤ := round (|q| * 100)
  (if q < 0 then "-" else "") ++ toString (n / 100) ++ "." ++
    (if n % 100 < 10 then "0" else "") ++ toString (n % 100)

/-- The string appended to `debug_text` for one surviving match
(line 79), with the text body truncated to 300 characters. -/
def provenanceLine (m : TaggedMatch) : String :=
  "--- [Zdroj: " ++ m.source_namespace ++ " | Relevence: " ++ format2f m.score ++
    "] ---\n" ++ (textContent m).take 300 ++ "...\n\n"

/-- One iteration of the loop of lines 71-79: a match with non-empty text
appends its text to `contexts` and its line to `debug_text`; any other
match is skipped. -/
def loopStep (acc : List String × String) (m : TaggedMatch) : List String × String :=
  if textContent m ≠ "" then (acc.1 ++ [textContent m], acc.2 ++ provenanceLine m)
  else acc

/-- The `(contexts, debug_text)` pair after the loop of lines 71-79 has
run over `sorted_matches[:5]`. -/
def contextsAndDebug (env : Env) : List String × String :=
  ((sorted_matches env).take 5).foldl loopStep ([], "")

/-- The matches of `sorted_matches[:5]` that pass the `if text_content:`
guard — the entries that actually survive into the context and the
provenance trail. -/
def keptMatches (env : Env) : List TaggedMatch :=
  ((sorted_matches env).take 5).filter fun m => textContent m ≠ ""

/-- Python `sep.join(l)`. -/
def joinSep (sep : String) : List String → String
  | [] => ""
  | [a] => a
  | a :: b :: rest => a ++ sep ++ joinSep sep (b :: rest)

/-- Concatenation of a list of strings (the `+=` accumulation of
`debug_text`). -/
def strConcat : List String → String
  | [] => ""
  | a :: as => a ++ strConcat as

/-- `retrieve_context` (lines 48-81): on embedding failure return
`("", "")`; otherwise collect, sort, truncate to five, filter empty
texts, and return the joined context together with the provenance
trail. -/
def retrieve_context (env : Env) : String × String :=
  if env.embedOk then
    (joinSep "\n\n" (contextsAndDebug env).1, (contextsAndDebug env).2)
  else ("", "")

/-- Roles occurring in chat messages. -/
inductive Role where
  | user
  | assistant
deriving DecidableEq

/-- A message as accepted by the model call: role and content only. -/
structure Message where
  role : Role
  content : String
deriving DecidableEq

/-- A turn as stored in `st.session_state.messages`: role, content, and
the optional `sources` field the UI attaches to assistant turns
(lines 145-149). -/
structure Turn where
  role : Role
  content : String
  sources : Option String
deriving DecidableEq

/-- The message sequence `get_response` passes to the model call
(line 109): exactly one user message holding the current input. -/
def messagesSent (user_input : String) : List Message :=
  [⟨Role.user, user_input⟩]

/-- Modelled from the spec: the section-4.4 `buildMessages` rule — all
history turns except the most-recently-appended one, each projected to
role and content, then the current query appended as a fresh user
message. No such builder exists in `src/app.py`; this definition exists
only to be compared with `messagesSent`. -/
def buildMessagesSpec (history : List Turn) (currentQuery : String) : List Message :=
  history.dropLast.map (fun t => ⟨t.role, t.content⟩) ++ [⟨Role.user, currentQuery⟩]

/-- The ordered model fallback list (line 103). -/
def models_to_try : List String :=
  ["claude-3-5-sonnet-latest", "claude-3-opus-latest", "claude-3-haiku-20240307"]

/-- Outcome oracle for `anthropic_client.messages.create`: given the
model id, the system prompt and the message list, either the returned
text `msg.content[0].text` or `none` when the call raises. -/
structure ModelEnv where
  call : String → String → List Message → Option String

/-- The system prompt of lines 89-101, as a function of the assembled
context. -/
def system_prompt (context : String) : String :=
  "\n    You are an AI Coach modeled after Vera Svach.\n    \n    CRITICAL RULE:\n    Answer based ONLY on the context below. If the answer is not in the context, say \"Based on the available content, I don't know.\"\n    \n    CONTEXT:\n    " ++
    context ++
    "\n    \n    TONE:\n    Be empathetic, concise, and professional.\n    LANGUAGE: The user asks in Czech, you MUST answer in Czech.\n    "

/-- The fixed "nothing found" message of line 87. -/
def noContextMsg : String :=
  "Omlouvám se, ale v databázi jsem nenašla žádné relevantní informace."

/-- The fixed all-models-failed message of line 115. -/
def allFailedMsg : String := "Chyba: Nepodařilo se připojit k AI."

/-- The `for model in models_to_try` loop of lines 105-113: first
successful call wins, failures fall through to the next model. -/
def tryModels (menv : ModelEnv) (sys : String) (msgs : List Message) :
    List String → Option String
  | [] => none
  | m :: rest =>
    match menv.call m sys msgs with
    | some t => some t
    | none => tryModels menv sys msgs rest

/-- `get_response` (lines 83-115): retrieve context; refuse with the
fixed message when the context is empty; otherwise try the models in
order and return the first success with the provenance trail, or the
fixed failure message with empty provenance. -/
def get_response (env : Env) (menv : ModelEnv) (user_input : String) : String × String :=
  if (retrieve_context env).1 = "" then (noContextMsg, "")
  else
    match tryModels menv (system_prompt (retrieve_context env).1)
        (messagesSent user_input) models_to_try with
    | some t => (t, (retrieve_context env).2)
    | none => (allFailedMsg, "")

/-- The spec's scenario history: two prior turns plus the already-appended
new user turn. -/
def historyScenario : List Turn :=
  [⟨Role.user, "Kdo je Věra?", none⟩,
   ⟨Role.assistant, "...", none⟩,
   ⟨Role.user, "A co ona říká o stresu?", none⟩]

/-- The spec's retrieval scenario: three namespaces returning three
matches each, with the scores of section 8. -/
def envScenario : Env :=
  ⟨true, fun ns =>
    if ns = "book-mybook-cs" then
      some [⟨some "b1", 0.91⟩, ⟨some "b2", 0.77⟩, ⟨some "b3", 0.65⟩]
    else if ns = "blog-cs" then
      some [⟨some "g1", 0.88⟩, ⟨some "g2", 0.70⟩, ⟨some "g3", 0.50⟩]
    else if ns = "podcast_cs" then
      some [⟨some "p1", 0.95⟩, ⟨some "p2", 0.60⟩, ⟨some "p3", 0.40⟩]
    else none⟩

/-- A one-hit environment used to instantiate universally quantified
theorems: the first namespace returns a single match with text "t",
the others return no matches. -/
def envOne : Env :=
  ⟨true, fun ns => if ns = "book-mybook-cs" then some [⟨some "t", 1⟩] else some []⟩

/-- The tagged form of the single hit of `envOne`. -/
def mOne : TaggedMatch := ⟨some "t", 1, "book-mybook-cs"⟩

/-- An environment in which every collection search raises. -/
def envFail : Env := ⟨true, fun _ => none⟩

/-- A model oracle in which every completion call raises. -/
def menvNone : ModelEnv := ⟨fun _ _ _ => none⟩

/-- An environment in which the second namespace raises and the others
return one match each. -/
def envIso : Env :=
  ⟨true, fun n => if n = "blog-cs" then none else some [⟨some "t", 1⟩]⟩

/-- Like `envIso` except that the second namespace now succeeds; it
agrees with `envIso` on every other namespace. -/
def envIso2 : Env :=
  ⟨true, fun n => if n = "blog-cs" then some [⟨some "u", 1⟩] else some [⟨some "t", 1⟩]⟩

/-- Six candidates across two namespaces, five of them with non-empty
text; the single empty-text candidate carries the highest score. -/
def envSix : Env :=
  ⟨true, fun ns =>
    if ns = "book-mybook-cs" then
      some [⟨some "", 0.99⟩, ⟨some "t1", 0.9⟩, ⟨some "t2", 0.8⟩]
    else if ns = "blog-cs" then
      some [⟨some "t3", 0.7⟩, ⟨some "t4", 0.6⟩, ⟨some "t5", 0.5⟩]
    else some []⟩

/-! ### Properties of the stable descending sort -/

lemma insertDesc_perm (m : TaggedMatch) (l : List TaggedMatch) :
    List.Perm (insertDesc m l) (m :: l) := by
  induction l with
  | nil => rfl
  | cons x xs ih =>
    rw [insertDesc]
    by_cases h : x.score < m.score
    · rw [if_pos h]
    · rw [if_neg h]
      exact (ih.cons x).trans (List.Perm.swap m x xs)

lemma mem_insertDesc {a m : TaggedMatch} {l : List TaggedMatch} :
    a ∈ insertDesc m l ↔ a = m ∨ a ∈ l := by
  rw [(insertDesc_perm m l).mem_iff, List.mem_cons]

lemma insertDesc_sorted {m : TaggedMatch} {l : List TaggedMatch}
    (hl : l.Sorted ByScoreDesc) : (insertDesc m l).Sorted ByScoreDesc := by
  induction l with
  | nil => simp [insertDesc]
  | cons x xs ih =>
    rw [List.sorted_cons] at hl
    rw [insertDesc]
    by_cases h : x.score < m.score
    · rw [if_pos h, List.sorted_cons]
      refine ⟨?_, List.sorted_cons.mpr hl⟩
      intro b hb
      show b.score ≤ m.score
      rcases List.mem_cons.mp hb with hb | hb
      · exact hb ▸ h.le
      · exact le_trans (hl.1 b hb) h.le
    · rw [if_neg h, List.sorted_cons]
      refine ⟨?_, ih hl.2⟩
      intro b hb
      show b.score ≤ x.score
      rcases mem_insertDesc.mp hb with hb | hb
      · exact hb ▸ not_lt.mp h
      · exact hl.1 b hb

lemma foldl_insertDesc_sorted (l : List TaggedMatch) :
    ∀ acc : List TaggedMatch, acc.Sorted ByScoreDesc →
      (l.foldl (fun acc m => insertDesc m acc) acc).Sorted ByScoreDesc := by
  induction l with
  | nil => intro acc h; exact h
  | cons m rest ih =>
    intro acc h
    exact ih (insertDesc m acc) (insertDesc_sorted h)

lemma sortDesc_sorted (l : List TaggedMatch) : (sortDesc l).Sorted ByScoreDesc :=
  foldl_insertDesc_sorted l [] (List.sorted_nil)

lemma foldl_insertDesc_perm (l : List TaggedMatch) :
    ∀ acc : List TaggedMatch,
      List.Perm (l.foldl (fun acc m => insertDesc m acc) acc) (acc ++ l) := by
  induction l with
  | nil => intro acc; simp
  | cons m rest ih =>
    intro acc
    rw [List.foldl_cons]
    refine (ih (insertDesc m acc)).trans ?_
    have h1 : List.Perm (insertDesc m acc ++ rest) ((m :: acc) ++ rest) :=
      (insertDesc_perm m acc).append_right rest
    exact h1.trans (List.perm_middle).symm

lemma sortDesc_perm (l : List TaggedMatch) : List.Perm (sortDesc l) l :=
  (foldl_insertDesc_perm l []).trans (by simp)

lemma filterScore_nil (s : ℚ) : filterScore s [] = [] := rfl

lemma filterScore_cons (s : ℚ) (a : TaggedMatch) (l : List TaggedMatch) :
    filterScore s (a :: l) =
      if a.score = s then a :: filterScore s l else filterScore s l := by
  by_cases h : a.score = s <;> simp [filterScore, List.filter_cons, h]

lemma filterScore_insertDesc {s : ℚ} {m : TaggedMatch} {l : List TaggedMatch}
    (hl : l.Sorted ByScoreDesc) :
    filterScore s (insertDesc m l) =
      filterScore s l ++ (if m.score = s then [m] else []) := by
  induction l with
  | nil =>
    by_cases hm : m.score = s <;>
      simp [insertDesc, filterScore_cons, filterScore_nil, hm]
  | cons x xs ih =>
    rw [List.sorted_cons] at hl
    rw [insertDesc]
    by_cases h : x.score < m.score
    · rw [if_pos h]
      by_cases hm : m.score = s
      · have hnone : filterScore s (x :: xs) = [] := by
          rw [filterScore, List.filter_eq_nil_iff]
          intro b hb
          simp only [decide_eq_true_eq]
          intro hbs
          have hb' : b.score ≤ x.score := by
            rcases List.mem_cons.mp hb with hb | hb
            · exact hb ▸ le_refl _
            · exact hl.1 b hb
          rw [hbs, ← hm] at hb'
          exact absurd h (not_lt.mpr hb')
        simp [filterScore_cons, hm, hnone]
      · simp [filterScore_cons, hm]
    · rw [if_neg h]
      by_cases hx : x.score = s <;>
        simp [filterScore_cons, ih hl.2, hx]

lemma filterScore_foldl (s : ℚ) (l : List TaggedMatch) :
    ∀ acc : List TaggedMatch, acc.Sorted ByScoreDesc →
      filterScore s (l.foldl (fun acc m => insertDesc m acc) acc) =
        filterScore s acc ++ filterScore s l := by
  induction l with
  | nil => intro acc _; simp [filterScore_nil]
  | cons m rest ih =>
    intro acc hacc
    rw [List.foldl_cons, ih (insertDesc m acc) (insertDesc_sorted hacc),
      filterScore_insertDesc hacc, filterScore_cons]
    by_cases hm : m.score = s <;> simp [hm]

lemma sortDesc_filterScore (s : ℚ) (l : List TaggedMatch) :
    filterScore s (sortDesc l) = filterScore s l := by
  rw [sortDesc, filterScore_foldl s l [] List.sorted_nil, filterScore_nil,
    List.nil_append]

/-! ### String helpers -/

lemma str_eq_empty_iff (s : String) : s = "" ↔ s.data = [] := by
  constructor
  · intro h; simp [h]
  · intro h; cases s; simp_all

lemma str_append_ne_left {a : String} (h : a ≠ "") (b : String) : a ++ b ≠ "" := by
  intro hab
  apply h
  have : (a ++ b).data = [] := (str_eq_empty_iff _).mp hab
  rw [String.data_append] at this
  exact (str_eq_empty_iff a).mpr (List.append_eq_nil.mp this).1

lemma str_empty_append (s : String) : "" ++ s = s := by
  cases s
  rfl

lemma joinSep_ne_empty {a : String} (h : a ≠ "") (sep : String) (l : List String) :
    joinSep sep (a :: l) ≠ "" := by
  cases l with
  | nil => exact h
  | cons b rest =>
    rw [joinSep]
    exact str_append_ne_left (str_append_ne_left h sep) _

lemma provenanceLine_ne_empty (m : TaggedMatch) : provenanceLine m ≠ "" := by
  have h0 : ("--- [Zdroj: " : String) ≠ "" := by decide
  rw [provenanceLine]
  exact str_append_ne_left (str_append_ne_left (str_append_ne_left
    (str_append_ne_left (str_append_ne_left (str_append_ne_left h0 _) _) _) _) _) _

/-! ### Shape of the lines 71-79 loop -/

lemma foldl_loopStep (ms : List TaggedMatch) :
    ∀ c d, ms.foldl loopStep (c, d) =
      (c ++ ((ms.filter fun m => textContent m ≠ "").map textContent),
        d ++ strConcat ((ms.filter fun m => textContent m ≠ "").map provenanceLine)) := by
  induction ms with
  | nil => intro c d; simp [strConcat]
  | cons m rest ih =>
    intro c d
    rw [List.foldl_cons, loopStep]
    by_cases hm : textContent m = ""
    · rw [if_neg (by simpa using hm), ih]
      simp [List.filter_cons, hm]
    · rw [if_pos (by simpa using hm), ih]
      simp [List.filter_cons, hm, strConcat, String.append_assoc]

lemma contextsAndDebug_eq (env : Env) :
    contextsAndDebug env =
      ((keptMatches env).map textContent,
        strConcat ((keptMatches env).map provenanceLine)) := by
  rw [contextsAndDebug, foldl_loopStep, keptMatches]
  simp [str_empty_append]

/-! ### Concrete evaluations used by the witness theorems -/

lemma keptMatches_envOne : keptMatches envOne = [mOne] := by
  simp [keptMatches, sorted_matches, sortDesc, collectMatches, contribution,
    tagHits, NAMESPACES, insertDesc, textContent, envOne, mOne, List.foldl]

lemma retrieve_context_envOne : retrieve_context envOne = ("t", provenanceLine mOne) := by
  rw [retrieve_context, if_pos (show envOne.embedOk = true from rfl),
    contextsAndDebug_eq, keptMatches_envOne]
  simp [joinSep, strConcat, textContent, mOne]

lemma tryModels_eq_none {menv : ModelEnv} {sys : String} {msgs : List Message}
    {ms : List String} (h : ∀ m ∈ ms, menv.call m sys msgs = none) :
    tryModels menv sys msgs ms = none := by
  induction ms with
  | nil => rfl
  | cons m rest ih =>
    rw [tryModels, h m (List.mem_cons_self m rest)]
    exact ih fun x hx => h x (List.mem_cons_of_mem m hx)

/-! ### Claim theorems -/

/-- C1. For every query and every set of collection search results, the
ranked context produced by `retrieve_context` (the matches that survive
into the context, `keptMatches`) has at most 5 entries and is ordered by
relevance score descending; the context entries are exactly the texts of
those matches, in that order. -/
theorem rankedContext_le_five_and_sorted (env : Env) :
    (keptMatches env).length ≤ 5 ∧ (keptMatches env).Sorted ByScoreDesc ∧
      (contextsAndDebug env).1 = (keptMatches env).map textContent := by
  refine ⟨?_, ?_, congrArg Prod.fst (contextsAndDebug_eq env)⟩
  · exact le_trans (List.length_filter_le _ _) (List.length_take_le 5 _)
  · exact ((sortDesc_sorted (collectMatches env)).sublist
      (List.take_sublist 5 _)).sublist (List.filter_sublist _)

/-- C3. If the assembled context is non-empty and every model in the
fallback list fails, `get_response` returns the fixed error message with
empty provenance (and, being a total function, raises nothing). -/
theorem all_models_fail_fixed_error (env : Env) (menv : ModelEnv) (q : String)
    (hctx : (retrieve_context env).1 ≠ "")
    (hfail : ∀ m ∈ models_to_try, ∀ sys msgs, menv.call m sys msgs = none) :
    get_response env menv q = (allFailedMsg, "") := by
  rw [get_response, if_neg hctx, tryModels_eq_none fun m hm => hfail m hm _ _]

/-- Witness for C3 at a concrete environment: one retrieved match, all
three model calls failing. -/
theorem all_models_fail_fixed_error_witness :
    (retrieve_context envOne).1 ≠ "" ∧
      (∀ m ∈ models_to_try, ∀ sys msgs, menvNone.call m sys msgs = none) ∧
      get_response envOne menvNone "q" = (allFailedMsg, "") := by
  have h1 : (retrieve_context envOne).1 ≠ "" := by
    rw [retrieve_context_envOne]
    decide
  have h2 : ∀ m ∈ models_to_try, ∀ sys msgs, menvNone.call m sys msgs = none :=
    fun _ _ _ _ => rfl
  exact ⟨h1, h2, all_models_fail_fixed_error envOne menvNone "q" h1 h2⟩

/-- C4. If every collection search fails or returns no matches, the
assembled context is empty and `get_response` returns the fixed
"nothing found" message with empty provenance, for every model oracle
(so no model is ever consulted) and without raising. -/
theorem no_context_refusal (env : Env) (menv : ModelEnv) (q : String)
    (hsearch : ∀ ns ∈ NAMESPACES, env.search ns = none ∨ env.search ns = some []) :
    get_response env menv q = (noContextMsg, "") := by
  have h1 := hsearch "book-mybook-cs" (by simp [NAMESPACES])
  have h2 := hsearch "blog-cs" (by simp [NAMESPACES])
  have h3 := hsearch "podcast_cs" (by simp [NAMESPACES])
  have hnil : collectMatches env = [] := by
    rw [collectMatches, NAMESPACES]
    rcases h1 with h1 | h1 <;> rcases h2 with h2 | h2 <;> rcases h3 with h3 | h3 <;>
      simp [contribution, tagHits, h1, h2, h3]
  have hcd : contextsAndDebug env = ([], "") := by
    rw [contextsAndDebug, sorted_matches, hnil]
    rfl
  have hrc : retrieve_context env = ("", "") := by
    rw [retrieve_context, hcd]
    simp [joinSep]
  rw [get_response, hrc]
  simp

/-- Witness for C4: all three searches raise, every model call raises. -/
theorem no_context_refusal_witness :
    (∀ ns ∈ NAMESPACES, envFail.search ns = none ∨ envFail.search ns = some []) ∧
      get_response envFail menvNone "q" = (noContextMsg, "") := by
  have h : ∀ ns ∈ NAMESPACES, envFail.search ns = none ∨ envFail.search ns = some [] :=
    fun _ _ => Or.inl rfl
  exact ⟨h, no_context_refusal envFail menvNone "q" h⟩

/-- C5. A failing collection contributes zero matches, and the merged
match list is exactly the concatenation, in configuration order, of the
other collections' tagged contributions — computed from any environment
that agrees on those collections, so the failure never affects another
collection's contribution or aborts retrieval. -/
theorem collection_failure_isolated (env env2 : Env) (ns : String)
    (hfail : env.search ns = none)
    (hagree : ∀ n, n ≠ ns → env.search n = env2.search n) :
    collectMatches env =
      (NAMESPACES.map fun n => if n = ns then [] else contribution env2 n).flatten := by
  rw [collectMatches]
  congr 1
  refine List.map_congr_left fun n _ => ?_
  by_cases hn : n = ns
  · rw [if_pos hn, hn, contribution, hfail]
  · rw [if_neg hn, contribution, contribution, hagree n hn]

/-- Witness for C5: the second namespace raises in `envIso`; `envIso2`
agrees with it elsewhere but succeeds there. -/
theorem collection_failure_isolated_witness :
    envIso.search "blog-cs" = none ∧
      (∀ n, n ≠ "blog-cs" → envIso.search n = envIso2.search n) ∧
      collectMatches envIso =
        (NAMESPACES.map fun n =>
          if n = "blog-cs" then [] else contribution envIso2 n).flatten := by
  have hf : envIso.search "blog-cs" = none := by simp [envIso]
  have ha : ∀ n, n ≠ "blog-cs" → envIso.search n = envIso2.search n := by
    intro n hn
    simp [envIso, envIso2, hn]
  exact ⟨hf, ha, collection_failure_isolated envIso envIso2 "blog-cs" hf ha⟩

/-- C6. The line-66 sort is a genuine stable descending sort: its output
is ordered by score descending, is a permutation of its input, and for
every score value the matches carrying that score appear in the output
in exactly their original discovery order. -/
theorem sort_stable_desc (l : List TaggedMatch) :
    (sortDesc l).Sorted ByScoreDesc ∧ List.Perm (sortDesc l) l ∧
      ∀ s : ℚ, filterScore s (sortDesc l) = filterScore s l :=
  ⟨sortDesc_sorted l, sortDesc_perm l, fun s => sortDesc_filterScore s l⟩

/-- C7. In the spec's concrete scenario (three namespaces returning
scores 0.91/0.77/0.65, 0.88/0.70/0.50 and 0.95/0.60/0.40), the
surviving top-5 is 0.95 (podcast), 0.91 (book), 0.88 (blog), 0.77
(book), 0.70 (blog), in that order. -/
theorem scenario_top5 :
    (keptMatches envScenario).map (fun m => (m.score, m.source_namespace)) =
      [(0.95, "podcast_cs"), (0.91, "book-mybook-cs"), (0.88, "blog-cs"),
        (0.77, "book-mybook-cs"), (0.70, "blog-cs")] := by
  norm_num [keptMatches, sorted_matches, sortDesc, collectMatches, contribution,
    tagHits, NAMESPACES, insertDesc, textContent, envScenario, List.foldl,
    List.filter_cons, List.filter_nil]
  simp

/-- C2 counterexample. On the spec's own scenario history, the message
sequence the code passes to the model is the single current-query
message, not the history projection the claim describes: the two
disagree. -/
theorem buildMessages_history_counterexample :
    messagesSent "A co ona říká o stresu?" ≠
      buildMessagesSpec historyScenario "A co ona říká o stresu?" := by
  simp [messagesSent, buildMessagesSpec, historyScenario]

/-- C2 amended. The message sequence passed to the model is exactly one
element, a user message holding the current query (the `Message` type
carries nothing beyond role and content); no history turn is forwarded,
so whenever the history minus its most-recently-appended turn is
non-empty the sequence differs from the spec's history-projection
rule. -/
theorem messages_sent_single_user_only (history : List Turn) (q : String)
    (h : history.dropLast ≠ []) :
    messagesSent q = [⟨Role.user, q⟩] ∧
      messagesSent q ≠ buildMessagesSpec history q := by
  refine ⟨rfl, fun heq => h ?_⟩
  have hlen := congrArg List.length heq
  simp only [messagesSent, buildMessagesSpec, List.length_append,
    List.length_map, List.length_cons, List.length_nil] at hlen
  exact List.eq_nil_of_length_eq_zero (by omega)

/-- Witness for C2 at the scenario history, whose dropLast is the two
prior turns. -/
theorem messages_sent_single_user_only_witness :
    historyScenario.dropLast ≠ [] ∧
      (messagesSent "A co ona říká o stresu?" =
          [⟨Role.user, "A co ona říká o stresu?"⟩] ∧
        messagesSent "A co ona říká o stresu?" ≠
          buildMessagesSpec historyScenario "A co ona říká o stresu?") := by
  have h : historyScenario.dropLast ≠ [] := by simp [historyScenario]
  exact ⟨h, messages_sent_single_user_only historyScenario _ h⟩

/-- C8. No match whose text body is empty or missing survives into the
context or the provenance trail: every kept match has non-empty text,
and the provenance trail is built from the kept matches alone. -/
theorem empty_text_never_contributes (env : Env) (m : TaggedMatch)
    (hm : m ∈ keptMatches env) :
    textContent m ≠ "" ∧
      (contextsAndDebug env).2 = strConcat ((keptMatches env).map provenanceLine) := by
  refine ⟨?_, congrArg Prod.snd (contextsAndDebug_eq env)⟩
  rw [keptMatches] at hm
  simpa using List.of_mem_filter hm

/-- Witness for C8 at the one-hit environment. -/
theorem empty_text_never_contributes_witness :
    mOne ∈ keptMatches envOne ∧ textContent mOne ≠ "" := by
  have hm : mOne ∈ keptMatches envOne := by
    rw [keptMatches_envOne]
    exact List.mem_singleton_self mOne
  exact ⟨hm, (empty_text_never_contributes envOne mOne hm).1⟩

/-- C9. Empty-text filtering happens only after truncation to the top 5:
in `envSix` the merged list has five matches with non-empty text, yet
fewer than five context entries survive, because the top-scored
empty-text match consumes one of the five slots. -/
theorem filter_after_truncation_loses_slots :
    5 ≤ ((collectMatches envSix).filter fun m => textContent m ≠ "").length ∧
      (keptMatches envSix).length < 5 := by
  refine ⟨?_, ?_⟩
  · simp [collectMatches, contribution, tagHits, NAMESPACES, envSix,
      textContent, List.filter_cons, List.filter_nil]
  · norm_num [keptMatches, sorted_matches, sortDesc, collectMatches, contribution,
      tagHits, NAMESPACES, insertDesc, textContent, envSix, List.foldl,
      List.filter_cons, List.filter_nil]
    simp

/-- C10. The context and the provenance trail returned by
`retrieve_context` are empty together, and whenever the provenance
trail is empty `get_response` returns the no-context refusal. -/
theorem context_empty_iff_provenance_empty (env : Env) :
    ((retrieve_context env).1 = "" ↔ (retrieve_context env).2 = "") ∧
      ∀ (menv : ModelEnv) (q : String), (retrieve_context env).2 = "" →
        get_response env menv q = (noContextMsg, "") := by
  have main : (retrieve_context env).1 = "" ↔ (retrieve_context env).2 = "" := by
    by_cases hemb : env.embedOk = true
    · rw [retrieve_context, if_pos hemb, contextsAndDebug_eq]
      cases hk : keptMatches env with
      | nil => simp [joinSep, strConcat]
      | cons m rest =>
        have hm : m ∈ keptMatches env := by
          rw [hk]
          exact List.mem_cons_self m rest
        rw [keptMatches] at hm
        have hmne : textContent m ≠ "" := by simpa using List.of_mem_filter hm
        constructor
        · intro h1
          exact absurd h1 (by
            simpa using joinSep_ne_empty hmne "\n\n" (rest.map textContent))
        · intro h2
          exact absurd h2 (by
            simpa [strConcat] using str_append_ne_left (provenanceLine_ne_empty m)
              (strConcat (rest.map provenanceLine)))
    · rw [retrieve_context, if_neg hemb]
  refine ⟨main, fun menv q h2 => ?_⟩
  rw [get_response, if_pos (main.mpr h2)]

/-- Witness for C10: with every search failing, the provenance trail is
empty and the refusal fires. -/
theorem context_empty_iff_provenance_empty_witness :
    (retrieve_context envFail).2 = "" ∧
      get_response envFail menvNone "q" = (noContextMsg, "") := by
  have h2 : (retrieve_context envFail).2 = "" := rfl
  exact ⟨h2, (context_empty_iff_provenance_empty envFail).2 menvNone "q" h2⟩

end Verai
